import Mathlib

/-!
Shallow embedding of the SetupRunner extension (TypeScript sources under
`src/SetupRunner/`): the Audit → Plan → Execute pipeline, the Linux
package-manager resolution, and the terminal marker-based exit-code protocol.

Each definition is translated from the corresponding TypeScript function and
keeps its source name.  External collaborators (the `semver` library, the
VS Code API, the file system, child processes) are modelled as explicit
parameters: pure functions for library calls, environment records for
effectful calls, and event lists for the terminal output stream.
-/

namespace SetupRunner

/-! ## Data model (`types.ts`) -/

/-- Mirrors `interface DependencyRequirement` in `types.ts`. -/
structure DependencyRequirement where
  id : String
  name : String
  requiredVersion : String
  cliName : String
  versionFlag : String
deriving DecidableEq, Repr

/-- Mirrors `interface AuditResult` in `types.ts`; the optional
`installedVersion?` field becomes an `Option`. -/
structure AuditResult where
  dependency : DependencyRequirement
  isInstalled : Bool
  installedVersion : Option String
deriving DecidableEq, Repr

/-- The three action literals of `ActionStep.action` in `types.ts`. -/
inductive Action where
  | INSTALL
  | REINSTALL
  | ALREADY_MET
deriving DecidableEq, Repr

/-- Mirrors `interface ActionStep` in `types.ts`. -/
structure ActionStep where
  dependency : DependencyRequirement
  action : Action
  reason : String
deriving DecidableEq, Repr

/-- Mirrors `type ActionPlan = ActionStep[]` in `types.ts`. -/
abbrev ActionPlan := List ActionStep

/-! ## Planner (`Planner.ts`) -/

/-- JavaScript truthiness of the optional string `installedVersion`:
`undefined` and the empty string are falsy, every other string is truthy. -/
def jsTruthyStr : Option String → Bool
  | none => false
  | some s => !(s == "")

/-- JavaScript `o || dflt` on an optional string: the default is used when
the value is `undefined` or the (falsy) empty string. -/
def jsOrElse (o : Option String) (dflt : String) : String :=
  match o with
  | none => dflt
  | some s => if s == "" then dflt else s

/-- Translation of `determineAction` in `Planner.ts`.  The external
`semver.satisfies` call is passed in as the function argument `satisfies`
(the real library returns `false` on an unparseable or empty version). -/
def determineAction (satisfies : String → String → Bool) (result : AuditResult) :
    ActionStep :=
  if !result.isInstalled then
    { dependency := result.dependency
      action := .INSTALL
      reason := result.dependency.name ++ " is not installed." }
  else if jsTruthyStr result.installedVersion &&
      satisfies (result.installedVersion.getD "") result.dependency.requiredVersion then
    { dependency := result.dependency
      action := .ALREADY_MET
      reason := result.dependency.name ++ " is installed at a compatible version (" ++
        result.installedVersion.getD "" ++ ")." }
  else
    { dependency := result.dependency
      action := .REINSTALL
      reason := result.dependency.name ++ " is installed at an incompatible version (" ++
        jsOrElse result.installedVersion "unknown" ++ "). Version " ++
        result.dependency.requiredVersion ++ " is required." }

/-- Translation of `createActionPlan` in `Planner.ts`: the push loop over
`auditResults` is the map of `determineAction`. -/
def createActionPlan (satisfies : String → String → Bool)
    (auditResults : List AuditResult) : ActionPlan :=
  auditResults.map (determineAction satisfies)

/-! ## Package catalog (`dependencyConfig.ts`)

The `PACKAGE_NAMES` object is embedded as an association list from the
dependency id to the per-platform association list; a JavaScript `null`
value becomes `none`.  Indexing a JavaScript object with an absent key
yields `undefined`, which `List.lookup` models as `none`. -/

/-- The `PACKAGE_NAMES` table of `dependencyConfig.ts`, verbatim. -/
def PACKAGE_NAMES : List (String × List (String × Option String)) := [
  ("python", [("win32", some "Python.Python.3"), ("darwin", some "python@3.12"),
    ("apt", some "python3"), ("dnf", some "python3"), ("pacman", some "python"),
    ("zypper", some "python3")]),
  ("node", [("win32", some "OpenJS.NodeJS.LTS"), ("darwin", some "node"),
    ("apt", some "nodejs"), ("dnf", some "nodejs"), ("pacman", some "nodejs"),
    ("zypper", some "nodejs")]),
  ("java_lts", [("win32", some "Microsoft.OpenJDK.21"), ("darwin", some "openjdk@21"),
    ("apt", some "openjdk-21-jdk"), ("dnf", some "java-21-openjdk-devel"),
    ("pacman", some "jdk-openjdk"), ("zypper", some "java-21-openjdk-devel")]),
  ("go", [("win32", some "Go.Go"), ("darwin", some "go"),
    ("apt", some "golang-go"), ("dnf", some "golang"), ("pacman", some "go"),
    ("zypper", some "go")]),
  ("rust", [("win32", some "Rustlang.Rustup"), ("darwin", some "rustup-init"),
    ("apt", some "rustc"), ("dnf", some "rust"), ("pacman", some "rust"),
    ("zypper", some "rust")]),
  ("dotnet_sdk", [("win32", some "Microsoft.DotNet.SDK.8"), ("darwin", some "dotnet-sdk"),
    ("apt", some "dotnet-sdk-8.0"), ("dnf", some "dotnet-sdk-8.0"),
    ("pacman", some "dotnet-sdk"), ("zypper", some "dotnet-sdk-8_0")]),
  ("git", [("win32", some "Git.Git"), ("darwin", some "git"),
    ("apt", some "git"), ("dnf", some "git"), ("pacman", some "git"),
    ("zypper", some "git")]),
  ("postgres", [("win32", some "PostgreSQL.PostgreSQL"), ("darwin", some "postgresql@16"),
    ("apt", some "postgresql"), ("dnf", some "postgresql-server"),
    ("pacman", some "postgresql"), ("zypper", some "postgresql-server")]),
  ("mysql", [("win32", some "Oracle.MySQL"), ("darwin", some "mysql"),
    ("apt", some "mysql-server"), ("dnf", some "mysql-server"),
    ("pacman", some "mariadb"), ("zypper", some "mysql-community-server")]),
  ("mongodb", [("win32", some "MongoDB.Server"), ("darwin", some "mongodb-community"),
    ("apt", some "mongodb-org"), ("dnf", some "mongodb-org"),
    ("pacman", some "mongodb"), ("zypper", some "mongodb")]),
  ("redis", [("win32", some "Redis.Redis"), ("darwin", some "redis"),
    ("apt", some "redis-server"), ("dnf", some "redis"), ("pacman", some "redis"),
    ("zypper", some "redis")]),
  ("sqlite", [("win32", some "SQLite.SQLite"), ("darwin", some "sqlite"),
    ("apt", some "sqlite3"), ("dnf", some "sqlite"), ("pacman", some "sqlite"),
    ("zypper", some "sqlite3")]),
  ("docker", [("win32", some "Docker.DockerDesktop"), ("darwin", some "docker"),
    ("apt", some "docker.io"), ("dnf", some "moby-engine"), ("pacman", some "docker"),
    ("zypper", some "docker")]),
  ("kubernetes_cli", [("win32", some "Kubernetes.kubectl"), ("darwin", some "kubernetes-cli"),
    ("apt", some "kubectl"), ("dnf", some "kubectl"), ("pacman", some "kubectl"),
    ("zypper", some "kubectl")]),
  ("terraform", [("win32", some "HashiCorp.Terraform"), ("darwin", some "terraform"),
    ("apt", some "terraform"), ("dnf", some "terraform"), ("pacman", some "terraform"),
    ("zypper", some "terraform")]),
  ("aws_cli", [("win32", some "Amazon.AWSCLI"), ("darwin", some "awscli"),
    ("apt", some "awscli"), ("dnf", some "awscli"), ("pacman", some "aws-cli"),
    ("zypper", some "aws-cli")]),
  ("azure_cli", [("win32", some "Microsoft.AzureCLI"), ("darwin", some "azure-cli"),
    ("apt", some "azure-cli"), ("dnf", some "azure-cli"), ("pacman", some "azure-cli"),
    ("zypper", some "azure-cli")]),
  ("gcloud_cli", [("win32", some "Google.CloudSDK"), ("darwin", some "google-cloud-sdk"),
    ("apt", some "google-cloud-cli"), ("dnf", some "google-cloud-cli"),
    ("pacman", some "google-cloud-sdk"), ("zypper", none)]),
  ("jq", [("win32", some "stedolan.jq"), ("darwin", some "jq"),
    ("apt", some "jq"), ("dnf", some "jq"), ("pacman", some "jq"),
    ("zypper", some "jq")]),
  ("neovim", [("win32", some "Neovim.Neovim"), ("darwin", some "neovim"),
    ("apt", some "neovim"), ("dnf", some "neovim"), ("pacman", some "neovim"),
    ("zypper", some "neovim")])]

/-! ## Executor (`Executor.ts`)

The module-level mutable `detectedPackageManager` (line 14) is threaded as an
explicit `Option PM` value: the cache contents at the start of a run come in
as an argument and the run's effect on it is returned.  Observable actions
(`outputChannel.appendLine`, `terminal.sendText`, `vscode.window.show*Message`)
are collected into a trace of structured `Obs` events; each constructor
corresponds to one message template at a specific source line. -/

/-- The values the `detectedPackageManager` variable can hold once non-null. -/
inductive PM where
  | apt
  | dnf
  | pacman
  | unknown
deriving DecidableEq, Repr

/-- String form of a `PM` value, as stored in the TypeScript union type. -/
def pmName : PM → String
  | .apt => "apt"
  | .dnf => "dnf"
  | .pacman => "pacman"
  | .unknown => "unknown"

/-- The unchecked `manager as 'apt' | 'dnf' | 'pacman'` cast at
`Executor.ts:75`, applied to members of the `managers` list. -/
def pmOfName (s : String) : PM :=
  if s == "apt" then .apt
  else if s == "dnf" then .dnf
  else if s == "pacman" then .pacman
  else .unknown

/-- One observable action of `executePlan` and its helpers.  Constructor ↦
source line: `logStartPlan` ↦ 17, `termCreated` ↦ 22-23, `logDetecting` ↦ 68,
`logRunSilently` ↦ 97, `logDetected` ↦ 74, `logNoManager` ↦ 81,
`logStartInstall` ↦ 188, `dialogNoInstallCmd` ↦ 192, `logStartUninstall` ↦ 199,
`dialogNoUninstallCmd` ↦ 203, `termSend` ↦ 130, `logSkipMet` ↦ 39-40,
`termSkipMet` ↦ 42, `logStepFailed` ↦ 48-49, `termStepFailed` ↦ 51,
`logPlanFinished` ↦ 56, `termAllComplete` ↦ 58. -/
inductive Obs where
  | logStartPlan (steps : Nat)
  | termCreated
  | logDetecting
  | logRunSilently (cmd : String)
  | logDetected (manager : String)
  | logNoManager
  | logStartInstall (name : String)
  | dialogNoInstallCmd (name : String)
  | logStartUninstall (name : String)
  | dialogNoUninstallCmd (name : String)
  | termSend (cmd : String)
  | logSkipMet (name : String)
  | termSkipMet (name : String)
  | logStepFailed (name : String)
  | termStepFailed (name : String)
  | logPlanFinished
  | termAllComplete
deriving DecidableEq, Repr

/-- The host environment an Executor run interacts with: `os.platform()`,
the success of `command -v <name>` presence probes, and the exit status of
each install or uninstall command the run spawns (`true` = exit code 0). -/
structure ExecEnv where
  platform : String
  present : String → Bool
  runOk : String → Bool

/-- Whether a step's helper threw (mirrors a rejected promise reaching the
`catch` in `executePlan`) or returned normally. -/
inductive StepOutcome where
  | ok
  | failed
deriving DecidableEq, Repr

/-- Translation of `getPackageNameForPlatform` in `Executor.ts` (lines
175-183).  On Linux the lookup key is the cached manager name (falsy `null`
short-circuits to `null`); `platformSpecificNames[key] || undefined-miss`
becomes the nested lookup, with the `|| null` coercion of falsy values. -/
def getPackageNameForPlatform (platform : String)
    (detectedPackageManager : Option PM) (id : String) : Option String :=
  match PACKAGE_NAMES.lookup id with
  | none => none
  | some platformSpecificNames =>
    let key : Option String :=
      if platform == "linux" then detectedPackageManager.map pmName else some platform
    match key with
    | none => none
    | some k =>
      match platformSpecificNames.lookup k with
      | some (some packageName) => if packageName == "" then none else some packageName
      | _ => none

/-- Translation of `getInstallCommand` in `Executor.ts` (lines 137-154). -/
def getInstallCommand (platform : String) (detectedPackageManager : Option PM)
    (dependency : DependencyRequirement) : Option String :=
  match getPackageNameForPlatform platform detectedPackageManager dependency.id with
  | none => none
  | some packageName =>
    if platform == "win32" then some ("winget install -e --id " ++ packageName)
    else if platform == "darwin" then some ("brew install " ++ packageName)
    else if platform == "linux" then
      match detectedPackageManager with
      | some .apt => some ("sudo apt-get install -y " ++ packageName)
      | some .dnf => some ("sudo dnf install -y " ++ packageName)
      | some .pacman => some ("sudo pacman -S --noconfirm " ++ packageName)
      | _ => none
    else none

/-- Translation of `getUninstallCommand` in `Executor.ts` (lines 156-173). -/
def getUninstallCommand (platform : String) (detectedPackageManager : Option PM)
    (dependency : DependencyRequirement) : Option String :=
  match getPackageNameForPlatform platform detectedPackageManager dependency.id with
  | none => none
  | some packageName =>
    if platform == "win32" then some ("winget uninstall -e --id " ++ packageName)
    else if platform == "darwin" then some ("brew uninstall " ++ packageName)
    else if platform == "linux" then
      match detectedPackageManager with
      | some .apt => some ("sudo apt-get remove -y " ++ packageName)
      | some .dnf => some ("sudo dnf remove -y " ++ packageName)
      | some .pacman => some ("sudo pacman -Rns --noconfirm " ++ packageName)
      | _ => none
    else none

/-- Translation of the hybrid `runCommand` in `Executor.ts` (lines 87-93):
terminal mode sends the text to the terminal, silent mode logs it; either
way the promise settles according to the command's exit status, which the
environment's `runOk` decides (the marker protocol that produces this status
in terminal mode is modelled separately by `runCommandInTerminal`). -/
def runCommand (env : ExecEnv) (useTerminal : Bool) (cmd : String) :
    List Obs × Bool :=
  if useTerminal then ([Obs.termSend cmd], env.runOk cmd)
  else ([Obs.logRunSilently cmd], env.runOk cmd)

/-- Translation of `installDependency` in `Executor.ts` (lines 186-196); the
returned Bool is `false` exactly when the TypeScript function throws (no
command configured, or the command run rejected). -/
def installDependency (env : ExecEnv) (pm : Option PM) (useTerminal : Bool)
    (dependency : DependencyRequirement) : List Obs × Bool :=
  let start := Obs.logStartInstall dependency.name
  match getInstallCommand env.platform pm dependency with
  | none => ([start, Obs.dialogNoInstallCmd dependency.name], false)
  | some cmd =>
    let r := runCommand env useTerminal cmd
    (start :: r.1, r.2)

/-- Translation of `uninstallDependency` in `Executor.ts` (lines 197-207). -/
def uninstallDependency (env : ExecEnv) (pm : Option PM) (useTerminal : Bool)
    (dependency : DependencyRequirement) : List Obs × Bool :=
  let start := Obs.logStartUninstall dependency.name
  match getUninstallCommand env.platform pm dependency with
  | none => ([start, Obs.dialogNoUninstallCmd dependency.name], false)
  | some cmd =>
    let r := runCommand env useTerminal cmd
    (start :: r.1, r.2)

/-- The messages emitted by the `catch` block of `executePlan` (lines 47-53):
a log line naming the dependency, plus a terminal echo when on Linux. -/
def failTail (useTerminal : Bool) (name : String) : List Obs :=
  Obs.logStepFailed name :: (if useTerminal then [Obs.termStepFailed name] else [])

/-- One iteration of the `for (const step of plan)` loop of `executePlan`
(lines 27-54): the `switch` on the action together with the per-step
`try`/`catch`.  In the `REINSTALL` arm the two awaits are sequential inside
the same `try`, so a rejection of the uninstall skips the install. -/
def execStep (env : ExecEnv) (pm : Option PM) (useTerminal : Bool)
    (step : ActionStep) : List Obs × StepOutcome :=
  match step.action with
  | .ALREADY_MET =>
    (Obs.logSkipMet step.dependency.name ::
      (if useTerminal then [Obs.termSkipMet step.dependency.name] else []), .ok)
  | .INSTALL =>
    let r := installDependency env pm useTerminal step.dependency
    if r.2 then (r.1, .ok) else (r.1 ++ failTail useTerminal step.dependency.name, .failed)
  | .REINSTALL =>
    let u := uninstallDependency env pm useTerminal step.dependency
    if u.2 then
      let i := installDependency env pm useTerminal step.dependency
      if i.2 then (u.1 ++ i.1, .ok)
      else (u.1 ++ i.1 ++ failTail useTerminal step.dependency.name, .failed)
    else (u.1 ++ failTail useTerminal step.dependency.name, .failed)

/-- The whole step loop of `executePlan`: observables are concatenated in
program order and each step contributes one outcome. -/
def execLoop (env : ExecEnv) (pm : Option PM) (useTerminal : Bool)
    (plan : ActionPlan) : List Obs × List StepOutcome :=
  (plan.flatMap (fun s => (execStep env pm useTerminal s).1),
   plan.map (fun s => (execStep env pm useTerminal s).2))

/-- The fixed probe order of `detectLinuxPackageManager` (line 69). -/
def managers : List String := ["apt", "dnf", "pacman"]

/-- The `for (const manager of managers)` probe loop of
`detectLinuxPackageManager` (lines 70-82): each attempt runs
`command -v <manager>` silently; the first present manager wins, otherwise
`unknown`. -/
def detectLoop (present : String → Bool) : List String → List Obs × PM
  | [] => ([Obs.logNoManager], .unknown)
  | m :: rest =>
    let attempt := Obs.logRunSilently ("command -v " ++ m)
    if present m then ([attempt, Obs.logDetected m], pmOfName m)
    else
      let r := detectLoop present rest
      (attempt :: r.1, r.2)

/-- Translation of `detectLinuxPackageManager` in `Executor.ts` (lines
63-83): early return when the cached value is already non-null (truthy);
otherwise the probe loop runs and the cache is written exactly once.  The
`Nat` component counts writes to `detectedPackageManager`. -/
def detectLinuxPackageManager (present : String → Bool) (cache : Option PM) :
    List Obs × Option PM × Nat :=
  match cache with
  | some pm => ([], some pm, 0)
  | none =>
    let r := detectLoop present managers
    (Obs.logDetecting :: r.1, some r.2, 1)

/-- Result of one `executePlan` run: the observable trace, the per-step
outcomes in plan order, the final contents of the `detectedPackageManager`
cache, and how many times that cache was written during the run. -/
structure ExecResult where
  obs : List Obs
  outcomes : List StepOutcome
  pm : Option PM
  pmWrites : Nat
deriving Repr

/-- The Linux-only prologue of `executePlan` (lines 21-25): create and show
the terminal, then detect the package manager once; on other platforms the
cache is untouched. -/
def detPhase (env : ExecEnv) (cache : Option PM) : List Obs × Option PM × Nat :=
  if env.platform == "linux" then
    let d := detectLinuxPackageManager env.present cache
    (Obs.termCreated :: d.1, d.2.1, d.2.2)
  else ([], cache, 0)

/-- Translation of `executePlan` in `Executor.ts` (lines 16-60): on Linux a
terminal is created and the package manager detected once, then the step
loop runs, then the finish log line and (on Linux) the terminal success
banner are emitted. -/
def executePlan (env : ExecEnv) (cache : Option PM) (plan : ActionPlan) :
    ExecResult :=
  let isLinux := env.platform == "linux"
  let det := detPhase env cache
  let loop := execLoop env det.2.1 isLinux plan
  { obs := Obs.logStartPlan plan.length :: det.1 ++ loop.1 ++
      [Obs.logPlanFinished] ++ (if isLinux then [Obs.termAllComplete] else [])
    outcomes := loop.2
    pm := det.2.1
    pmWrites := det.2.2 }

/-! ## Terminal marker protocol
(`runCommandInTerminal` in `Executor.ts`, lines 111-132, and the identical
`runCommandInTerminalAndWait` in `Auditor.ts`, lines 148-173)

The `onDidWriteTerminalData` subscription is modelled by folding the handler
over the list of data-write events delivered while the promise is pending;
disposing the listener after the first hit means later events are ignored.
Chunk payloads are `List Char` (the `e.data` string). -/

/-- How the promise of an interactive command run settles. -/
inductive CmdOutcome where
  | resolved
  | rejected (exitCode : Int)
deriving DecidableEq, Repr

/-- One `vscode.TerminalDataWriteEvent`: the emitting terminal (identified
by a number, since only identity comparison `e.terminal === terminal` is
used) and the data chunk. -/
structure TerminalDataWriteEvent where
  terminalId : Nat
  data : List Char
deriving DecidableEq, Repr

/-- JavaScript `s.includes(pat)`: some position of `s` starts with `pat`. -/
def jsIncludes (s pat : List Char) : Bool :=
  (List.range (s.length + 1)).any (fun i => pat.isPrefixOf (s.drop i))

/-- Numeric value of a decimal digit character. -/
def charVal (c : Char) : Nat := c.toNat - 48

/-- JavaScript `parseInt(ds, 10)` on a nonempty run of decimal digits. -/
def parseIntDigits (ds : List Char) : Nat :=
  ds.foldl (fun a c => a * 10 + charVal c) 0

/-- Attempt to match the regular expression `<token>:(\d+)` at position `i`
of `s`: the literal token, a colon, then a greedy nonempty digit run. -/
def regexMatchAt (token s : List Char) (i : Nat) : Option Nat :=
  if token.isPrefixOf (s.drop i) then
    match (s.drop i).drop token.length with
    | ':' :: rest =>
      let ds := rest.takeWhile Char.isDigit
      if ds.isEmpty then none else some (parseIntDigits ds)
    | _ => none
  else none

/-- JavaScript `s.match(new RegExp(token + colon-digits))`: the leftmost
position where the whole pattern matches, with its captured digit run.
The token (`COMMAND_EXIT_CODE_` plus digits) contains no regex
metacharacters, so the dynamically built pattern matches it literally. -/
def regexFirstMatch (token s : List Char) : Option Nat :=
  (List.range (s.length + 1)).findSome? (regexMatchAt token s)

/-- The body of the `onDidWriteTerminalData` listener (`Executor.ts` lines
118-129): on a chunk from our terminal that contains the token, extract the
exit code (`-1` when the colon-digits pattern is absent), dispose, and
settle: resolve on `0`, reject with the code otherwise.  `none` means the
listener stays subscribed. -/
def handleEvent (token : List Char) (terminalId : Nat)
    (e : TerminalDataWriteEvent) : Option CmdOutcome :=
  if e.terminalId == terminalId && jsIncludes e.data token then
    let exitCode : Int :=
      match regexFirstMatch token e.data with
      | some n => (n : Int)
      | none => -1
    some (if exitCode == 0 then .resolved else .rejected exitCode)
  else none

/-- Translation of the pending promise of `runCommandInTerminal` /
`runCommandInTerminalAndWait`: the handler scans the delivered events in
order; the first hit settles the promise and disposes the listener, so all
later events are ignored; with no hit the promise stays pending (`none`). -/
def runCommandInTerminal (token : List Char) (terminalId : Nat) :
    List TerminalDataWriteEvent → Option CmdOutcome
  | [] => none
  | e :: es =>
    match handleEvent token terminalId e with
    | some outcome => some outcome
    | none => runCommandInTerminal token terminalId es

/-- Decimal rendering of a natural number, as JavaScript template
interpolation `${Date.now()}` renders the timestamp: most significant digit
first, and `0` renders as `"0"`. -/
def renderDecimal (n : Nat) : String :=
  if n = 0 then "0" else ⟨((Nat.digits 10 n).map Nat.digitChar).reverse⟩

/-- The marker token built at `Executor.ts:113` / `Auditor.ts:151`:
`COMMAND_EXIT_CODE_${Date.now()}`. -/
def generateCommandId (now : Nat) : String :=
  "COMMAND_EXIT_CODE_" ++ renderDecimal now

/-- One invocation of the interactive command-run operation: invocations are
distinct events (`callId`), each reading the millisecond clock (`now`). -/
structure TerminalCall where
  callId : Nat
  now : Nat
deriving DecidableEq, Repr

/-- The marker token an invocation generates; it depends only on the
millisecond timestamp `Date.now()` observed by that invocation. -/
def TerminalCall.commandId (c : TerminalCall) : String :=
  generateCommandId c.now

/-! ## Auditor (`Auditor.ts`)

Modelled on the Linux path, the platform claims `C9` concerns: the
pre-flight is `detectLinuxDistribution`, then the config is read and the
dependency probes fan out.  The `/etc/os-release` read is an `Option String`
(`none` = unreadable), the config source an `Option` list, and the child
process spawns of `checkSingleDependency` are environment functions. -/

/-- Observable Auditor actions (log lines and dialogs), one constructor per
message template: `logStartAudit` ↦ line 24, `dialogFatal`/`logFatal` ↦
lines 29-30, `logDetectedDistro` ↦ 136, `logWarnDistro` ↦ 138,
`logNoDeps` ↦ 36, `logFoundDeps` ↦ 40, `logAuditComplete` ↦ 43.  The
distro id is carried as its character sequence. -/
inductive AuditObs where
  | logStartAudit
  | dialogFatal (msg : String)
  | logFatal (msg : String)
  | logDetectedDistro (distro : List Char)
  | logWarnDistro (distro : List Char)
  | logNoDeps
  | logFoundDeps (n : Nat)
  | logAuditComplete
deriving DecidableEq, Repr

/-- JavaScript `s.split(sep)` for a one-character separator, on character
sequences: splitting the empty string yields one empty field, and every
separator occurrence starts a new field. -/
def jsSplitChar (sep : Char) : List Char → List (List Char)
  | [] => [[]]
  | c :: cs =>
    let r := jsSplitChar sep cs
    if c == sep then [] :: r
    else
      match r with
      | [] => [[c]]
      | f :: rest => (c :: f) :: rest

/-- The recognized distribution ids of `Auditor.ts:134`. -/
def supportedDistros : List (List Char) :=
  ["ubuntu".data, "debian".data, "fedora".data, "centos".data, "rhel".data,
   "arch".data, "suse".data, "opensuse".data]

/-- The distro-id extraction of `detectLinuxDistribution` (lines 132-133):
split the file on newlines, find the first line starting with `ID=`, take
the field after the first equals sign (`split('=')[1]`), remove every double
quote (`replace(/"/g, '')`); `unknown` when no such line exists. -/
def distroOf (osRelease : List Char) : List Char :=
  match (jsSplitChar '\n' osRelease).find?
      (fun line => "ID=".data.isPrefixOf line) with
  | some idLine =>
    (((jsSplitChar '=' idLine).get? 1).getD []).filter (fun c => !(c == '"'))
  | none => "unknown".data

/-- Translation of `detectLinuxDistribution` in `Auditor.ts` (lines
128-143): an unreadable `/etc/os-release` throws; a readable one only ever
logs, a warning when the distro is not recognized. -/
def detectLinuxDistribution (osRelease : Option (List Char)) :
    Except String (List AuditObs) :=
  match osRelease with
  | none => .error "Could not detect Linux distribution."
  | some content =>
    let distro := distroOf content
    if supportedDistros.contains distro then .ok [.logDetectedDistro distro]
    else .ok [.logWarnDistro distro]

/-- The host environment of a Linux audit run: the `/etc/os-release`
content as a character sequence (`none` when unreadable), the parsed
`.devsetup.json` dependency list (when a config was found), the stdout of
silently spawned probe commands (`some` iff exit code 0), and the external
`semver.coerce(...)?.version` call. -/
structure AuditEnv where
  osRelease : Option (List Char)
  config : Option (List DependencyRequirement)
  execOut : String → Option String
  coerce : String → Option String

/-- Translation of `checkSingleDependency` in `Auditor.ts` (lines 185-194):
any execution failure resolves to not-installed; success pipes trimmed
stdout through `semver.coerce`. -/
def checkSingleDependency (env : AuditEnv) (dependency : DependencyRequirement) :
    AuditResult :=
  match env.execOut (dependency.cliName ++ " " ++ dependency.versionFlag) with
  | none => { dependency := dependency, isInstalled := false, installedVersion := none }
  | some stdout =>
    { dependency := dependency, isInstalled := true
      installedVersion := env.coerce stdout.trim }

/-- Result of one `runAudit` run: the returned value (`none` mirrors the
`null` of a fatal pre-flight), how many dependency probes were spawned, and
the observable trace. -/
structure AuditRunResult where
  results : Option (List AuditResult)
  probesRun : Nat
  obs : List AuditObs
deriving Repr

/-- Translation of `runAudit` in `Auditor.ts` (lines 23-45) on the Linux
path: a pre-flight throw is caught, shown, logged and returns `null` before
any config read or probe; a missing or empty config returns the empty (non
null) result; otherwise every declared dependency is probed. -/
def runAudit (env : AuditEnv) : AuditRunResult :=
  match detectLinuxDistribution env.osRelease with
  | .error msg =>
    { results := none, probesRun := 0
      obs := [.logStartAudit, .dialogFatal msg, .logFatal msg] }
  | .ok preObs =>
    match env.config with
    | none =>
      { results := some [], probesRun := 0
        obs := .logStartAudit :: preObs ++ [.logNoDeps] }
    | some dependencies =>
      if dependencies.isEmpty then
        { results := some [], probesRun := 0
          obs := .logStartAudit :: preObs ++ [.logNoDeps] }
      else
        { results := some (dependencies.map (checkSingleDependency env))
          probesRun := dependencies.length
          obs := .logStartAudit :: preObs ++
            [.logFoundDeps dependencies.length, .logAuditComplete] }

/-! ## Concrete fixtures used by witnesses and counterexamples -/

/-- The `node` requirement from the specification scenarios. -/
def nodeDep : DependencyRequirement :=
  { id := "node", name := "Node.js", requiredVersion := "^18.17.0"
    cliName := "node", versionFlag := "-v" }

/-- A `git` requirement, whose id is in the package catalog. -/
def gitDep : DependencyRequirement :=
  { id := "git", name := "Git", requiredVersion := "*"
    cliName := "git", versionFlag := "--version" }

/-- A Linux host on which no supported package manager is present and every
spawned command would succeed. -/
def linuxNoPMEnv : ExecEnv :=
  { platform := "linux", present := fun _ => false, runOk := fun _ => true }

/-- A macOS host on which exactly the command `brew uninstall git` fails. -/
def darwinUninstallFailEnv : ExecEnv :=
  { platform := "darwin", present := fun _ => true
    runOk := fun cmd => !(cmd == "brew uninstall git") }

/-- A macOS host on which every spawned command fails. -/
def darwinAllFailEnv : ExecEnv :=
  { platform := "darwin", present := fun _ => true, runOk := fun _ => false }

/-- An audit host whose `/etc/os-release` file is unreadable. -/
def unreadableAuditEnv : AuditEnv :=
  { osRelease := none, config := some [nodeDep]
    execOut := fun _ => none, coerce := fun _ => none }

/-- An audit host running an unrecognized distribution. -/
def gentooAuditEnv : AuditEnv :=
  { osRelease := some "ID=gentoo\n".data, config := some [nodeDep]
    execOut := fun _ => none, coerce := fun _ => none }

/-! ## Theorems -/

/-- Every branch of `determineAction` copies the audit result's dependency
unchanged into the step. -/
theorem determineAction_dependency (satisfies : String → String → Bool)
    (result : AuditResult) :
    (determineAction satisfies result).dependency = result.dependency := by
  unfold determineAction
  split
  · rfl
  · split <;> rfl

/-- C2: `determineAction` is total (it is a plain function into `ActionStep`)
and maps every `AuditResult` to exactly one of the three actions: not
installed yields `INSTALL`; installed with a present version satisfying the
required range yields `ALREADY_MET`; installed with the version absent or
not satisfying the range yields `REINSTALL`, whose reason cites the found
version (or `unknown`) and the required range.  The hypothesis `hEmpty`
records that the real `semver.satisfies` rejects the empty version string. -/
theorem determineAction_total_trichotomy (satisfies : String → String → Bool)
    (hEmpty : ∀ r, satisfies "" r = false) (result : AuditResult) :
    (result.isInstalled = false →
      determineAction satisfies result =
        { dependency := result.dependency, action := .INSTALL
          reason := result.dependency.name ++ " is not installed." })
    ∧ (result.isInstalled = true → ∀ v, result.installedVersion = some v →
        satisfies v result.dependency.requiredVersion = true →
        (determineAction satisfies result).action = .ALREADY_MET)
    ∧ (result.isInstalled = true →
        (∀ v, result.installedVersion = some v →
          satisfies v result.dependency.requiredVersion = false) →
        (determineAction satisfies result).action = .REINSTALL ∧
        (determineAction satisfies result).reason =
          result.dependency.name ++ " is installed at an incompatible version (" ++
            jsOrElse result.installedVersion "unknown" ++ "). Version " ++
            result.dependency.requiredVersion ++ " is required.") := by
  obtain ⟨dep, inst, iv⟩ := result
  refine ⟨?_, ?_, ?_⟩
  · intro h
    subst h
    rfl
  · rintro h v hv hs
    subst h
    cases hv
    by_cases hv0 : v = ""
    · subst hv0
      rw [hEmpty] at hs
      exact absurd hs (by simp)
    · simp [determineAction, jsTruthyStr, hs, hv0]
  · rintro h hall
    subst h
    cases iv with
    | none => simp [determineAction, jsTruthyStr, jsOrElse]
    | some v =>
      have hs := hall v rfl
      simp [determineAction, jsTruthyStr, hs, jsOrElse]

/-- Witness for C2 at the specification's three `node` scenarios. -/
theorem determineAction_total_trichotomy_witness :
    (determineAction (fun v _ => v == "18.20.2") ⟨nodeDep, false, none⟩).action = .INSTALL ∧
    (determineAction (fun v _ => v == "18.20.2") ⟨nodeDep, true, some "18.20.2"⟩).action =
      .ALREADY_MET ∧
    (determineAction (fun v _ => v == "18.20.2") ⟨nodeDep, true, some "16.2.0"⟩).action =
      .REINSTALL := by
  refine ⟨?_, ?_, ?_⟩
  · have h := determineAction_total_trichotomy (fun v _ => v == "18.20.2")
      (fun _ => rfl) ⟨nodeDep, false, none⟩
    rw [h.1 rfl]
  · exact (determineAction_total_trichotomy (fun v _ => v == "18.20.2")
      (fun _ => rfl) ⟨nodeDep, true, some "18.20.2"⟩).2.1 rfl "18.20.2" rfl (by decide)
  · exact ((determineAction_total_trichotomy (fun v _ => v == "18.20.2")
      (fun _ => rfl) ⟨nodeDep, true, some "16.2.0"⟩).2.2 rfl
      (fun v hv => by cases hv; decide)).1

/-- C7: the plan produced by `createActionPlan` has the same length and
order as the audit input, and the `i`-th step carries exactly the `i`-th
audit result's dependency: no dependency is added or omitted. -/
theorem createActionPlan_length_order (satisfies : String → String → Bool)
    (auditResults : List AuditResult) :
    (createActionPlan satisfies auditResults).length = auditResults.length ∧
    (createActionPlan satisfies auditResults).map ActionStep.dependency =
      auditResults.map AuditResult.dependency ∧
    ∀ i : Nat, ((createActionPlan satisfies auditResults)[i]?).map ActionStep.dependency =
      (auditResults[i]?).map AuditResult.dependency := by
  have hmap : (createActionPlan satisfies auditResults).map ActionStep.dependency =
      auditResults.map AuditResult.dependency := by
    rw [createActionPlan, List.map_map]
    exact List.map_congr_left (fun a _ => determineAction_dependency satisfies a)
  refine ⟨by simp [createActionPlan], hmap, ?_⟩
  intro i
  rw [← List.getElem?_map, ← List.getElem?_map, hmap]

/-- A property holding for every value of an association list holds for
every successful lookup. -/
theorem lookup_of_forall {α β : Type} [BEq α] {P : β → Prop} :
    ∀ (l : List (α × β)), (∀ p ∈ l, P p.2) → ∀ a b, l.lookup a = some b → P b := by
  intro l
  induction l with
  | nil => intro _ a b h; simp [List.lookup] at h
  | cons hd tl ih =>
    intro hall a b h
    obtain ⟨k, v⟩ := hd
    rw [List.lookup] at h
    cases hq : a == k with
    | true =>
      rw [hq] at h
      have hv : v = b := by
        change some v = some b at h
        exact Option.some.inj h
      subst hv
      exact hall (k, v) (by simp)
    | false =>
      rw [hq] at h
      exact ih (fun p hp => hall p (by simp [hp])) a b h

/-- With the cache holding `unknown`, the Linux catalog lookup key is the
string `unknown`, which no catalog entry carries. -/
theorem getPackageNameForPlatform_unknown (id : String) :
    getPackageNameForPlatform "linux" (some PM.unknown) id = none := by
  unfold getPackageNameForPlatform
  cases h : PACKAGE_NAMES.lookup id with
  | none => simp [h]
  | some entry =>
    have hu : entry.lookup "unknown" = none :=
      lookup_of_forall (P := fun e => e.lookup "unknown" = none) PACKAGE_NAMES
        (by decide) id entry h
    simp [h, pmName, hu]

/-- With the cache holding `unknown`, no install command resolves. -/
theorem getInstallCommand_unknown (dependency : DependencyRequirement) :
    getInstallCommand "linux" (some PM.unknown) dependency = none := by
  unfold getInstallCommand
  rw [getPackageNameForPlatform_unknown]

/-- With the cache holding `unknown`, no uninstall command resolves. -/
theorem getUninstallCommand_unknown (dependency : DependencyRequirement) :
    getUninstallCommand "linux" (some PM.unknown) dependency = none := by
  unfold getUninstallCommand
  rw [getPackageNameForPlatform_unknown]

/-- The uninstall helper never emits the install start log line. -/
theorem logStartInstall_not_mem_uninstall (env : ExecEnv) (pm : Option PM)
    (t : Bool) (dep : DependencyRequirement) (n : String) :
    Obs.logStartInstall n ∉ (uninstallDependency env pm t dep).1 := by
  unfold uninstallDependency
  cases getUninstallCommand env.platform pm dep with
  | none => simp
  | some cmd =>
    simp only [runCommand]
    cases t <;> simp

/-- The step-failure messages never include the install start log line. -/
theorem logStartInstall_not_mem_failTail (t : Bool) (name n : String) :
    Obs.logStartInstall n ∉ failTail t name := by
  unfold failTail
  cases t <;> simp

/-- C1 counterexample: on a macOS host where exactly `brew uninstall git`
fails, the one-step `REINSTALL` plan for Git runs the uninstall, the
step-level catch fires, and the install command is never attempted — the
install start log line does not appear in the run's trace. -/
theorem reinstall_uninstall_failure_skips_install :
    (executePlan darwinUninstallFailEnv none
        [⟨gitDep, .REINSTALL, "version mismatch"⟩]).outcomes = [.failed]
    ∧ Obs.logStartUninstall "Git" ∈ (executePlan darwinUninstallFailEnv none
        [⟨gitDep, .REINSTALL, "version mismatch"⟩]).obs
    ∧ Obs.logStartInstall "Git" ∉ (executePlan darwinUninstallFailEnv none
        [⟨gitDep, .REINSTALL, "version mismatch"⟩]).obs := by
  refine ⟨by decide, by decide, by decide⟩

/-- C1 amended: in every `REINSTALL` step the uninstall command is attempted
first and the install command is attempted exactly when the uninstall
succeeded; a failing uninstall makes the whole step fail and the install is
not attempted (both awaits sit in the same step-level `try`). -/
theorem reinstall_sequencing (env : ExecEnv) (pm : Option PM) (t : Bool)
    (dep : DependencyRequirement) (reason : String) :
    ((uninstallDependency env pm t dep).2 = true →
      (execStep env pm t ⟨dep, .REINSTALL, reason⟩).1 =
        (uninstallDependency env pm t dep).1 ++ (installDependency env pm t dep).1 ++
          (if (installDependency env pm t dep).2 then [] else failTail t dep.name) ∧
      (execStep env pm t ⟨dep, .REINSTALL, reason⟩).2 =
        (if (installDependency env pm t dep).2 then .ok else .failed))
    ∧ ((uninstallDependency env pm t dep).2 = false →
      (execStep env pm t ⟨dep, .REINSTALL, reason⟩).1 =
        (uninstallDependency env pm t dep).1 ++ failTail t dep.name ∧
      (execStep env pm t ⟨dep, .REINSTALL, reason⟩).2 = .failed ∧
      Obs.logStartInstall dep.name ∉ (execStep env pm t ⟨dep, .REINSTALL, reason⟩).1) := by
  constructor
  · intro hu
    have hstep : execStep env pm t ⟨dep, .REINSTALL, reason⟩ =
        ((uninstallDependency env pm t dep).1 ++ (installDependency env pm t dep).1 ++
          (if (installDependency env pm t dep).2 then [] else failTail t dep.name),
         if (installDependency env pm t dep).2 then .ok else .failed) := by
      unfold execStep
      simp only [hu]
      cases hi : (installDependency env pm t dep).2 <;> simp [hi]
    exact ⟨by rw [hstep], by rw [hstep]⟩
  · intro hu
    have hstep : execStep env pm t ⟨dep, .REINSTALL, reason⟩ =
        ((uninstallDependency env pm t dep).1 ++ failTail t dep.name, .failed) := by
      unfold execStep
      simp [hu]
    refine ⟨by rw [hstep], by rw [hstep], ?_⟩
    rw [hstep]
    intro hmem
    rcases List.mem_append.mp hmem with h | h
    · exact logStartInstall_not_mem_uninstall env pm t dep dep.name h
    · exact logStartInstall_not_mem_failTail t dep.name dep.name h

/-- Witness for the amended C1 on the concrete failing-uninstall host. -/
theorem reinstall_sequencing_witness :
    (execStep darwinUninstallFailEnv none false ⟨gitDep, .REINSTALL, "r"⟩).2 = .failed :=
  ((reinstall_sequencing darwinUninstallFailEnv none false gitDep "r").2 (by decide)).2.1

/-- C3 counterexample: a Linux Executor run that begins with the module
cache already holding `apt` (left there by an earlier run in the same
process) performs zero writes to the cache — it is not reset to the
unresolved state at run start and is not set during the run — and the value
still reads `apt` afterwards. -/
theorem detectedPackageManager_reset_counterexample :
    (executePlan linuxNoPMEnv (some .apt) []).pmWrites ≠ 1 ∧
    (executePlan linuxNoPMEnv (some .apt) []).pm = some .apt := by
  refine ⟨by decide, rfl⟩

/-- C3 amended: the detected package manager is a process-wide cache that
is not reset at Executor start.  A Linux run beginning with the cache
unresolved writes it exactly once and leaves it non-null; a run beginning
with it non-null never writes it and the value never changes; a non-Linux
run never touches it. -/
theorem detectedPackageManager_lifecycle (env : ExecEnv) (cache : Option PM)
    (plan : ActionPlan) :
    (env.platform = "linux" → cache = none →
      (executePlan env cache plan).pmWrites = 1 ∧
      (executePlan env cache plan).pm.isSome = true)
    ∧ (∀ pm, cache = some pm →
      (executePlan env cache plan).pmWrites = 0 ∧
      (executePlan env cache plan).pm = some pm)
    ∧ (env.platform ≠ "linux" →
      (executePlan env cache plan).pmWrites = 0 ∧
      (executePlan env cache plan).pm = cache) := by
  refine ⟨?_, ?_, ?_⟩
  · intro hp hc
    subst hc
    have hb : (env.platform == "linux") = true := by simp [hp]
    simp [executePlan, detPhase, hb, detectLinuxPackageManager]
  · intro pm hc
    subst hc
    cases hb : env.platform == "linux" <;>
      simp [executePlan, detPhase, hb, detectLinuxPackageManager]
  · intro hp
    have hb : (env.platform == "linux") = false := by simp [hp]
    simp [executePlan, detPhase, hb]

/-- Witness for the amended C3: a cold-cache Linux run writes once; a
warm-cache run keeps its value. -/
theorem detectedPackageManager_lifecycle_witness :
    (executePlan linuxNoPMEnv none []).pmWrites = 1 ∧
    (executePlan linuxNoPMEnv (some .dnf) []).pm = some .dnf := by
  constructor
  · exact ((detectedPackageManager_lifecycle linuxNoPMEnv none []).1 rfl rfl).1
  · exact ((detectedPackageManager_lifecycle linuxNoPMEnv (some .dnf) []).2.1 .dnf rfl).2

/-- The trace of one `executePlan` run, exposed as the prologue, the step
loop contributions, and the epilogue. -/
theorem executePlan_obs (env : ExecEnv) (cache : Option PM) (plan : ActionPlan) :
    (executePlan env cache plan).obs =
      Obs.logStartPlan plan.length :: (detPhase env cache).1 ++
        (execLoop env (detPhase env cache).2.1 (env.platform == "linux") plan).1 ++
        [Obs.logPlanFinished] ++
        (if env.platform == "linux" then [Obs.termAllComplete] else []) := rfl

/-- The outcomes of one `executePlan` run are the per-step outcomes in plan
order. -/
theorem executePlan_outcomes (env : ExecEnv) (cache : Option PM) (plan : ActionPlan) :
    (executePlan env cache plan).outcomes =
      plan.map (fun s =>
        (execStep env (detPhase env cache).2.1 (env.platform == "linux") s).2) := rfl

/-- A step that fails leaves the failure log line naming its dependency in
its own trace. -/
theorem execStep_failed_logged (env : ExecEnv) (pm : Option PM) (t : Bool)
    (step : ActionStep) :
    (execStep env pm t step).2 = .failed →
    Obs.logStepFailed step.dependency.name ∈ (execStep env pm t step).1 := by
  obtain ⟨d, a, r⟩ := step
  cases a with
  | ALREADY_MET => simp [execStep]
  | INSTALL =>
    unfold execStep
    cases hi : (installDependency env pm t d).2 <;> simp [hi, failTail]
  | REINSTALL =>
    unfold execStep
    cases hu : (uninstallDependency env pm t d).2 <;> simp [hu, failTail]
    cases hi : (installDependency env pm t d).2 <;> simp [hi, failTail]

/-- C6: for every plan, every step contributes exactly one outcome (a
single step's failure never aborts the remainder), each failing step is
logged with its dependency's name, and the run's final observable action is
the completion marker (the terminal success banner on Linux, the finish log
line elsewhere) regardless of how many steps failed. -/
theorem executePlan_step_failures_contained (env : ExecEnv) (cache : Option PM)
    (plan : ActionPlan) :
    (executePlan env cache plan).outcomes.length = plan.length
    ∧ (∀ i : Nat, ∀ s, plan[i]? = some s →
        (executePlan env cache plan).outcomes[i]? = some .failed →
        Obs.logStepFailed s.dependency.name ∈ (executePlan env cache plan).obs)
    ∧ (executePlan env cache plan).obs.getLast? =
        some (if env.platform == "linux" then Obs.termAllComplete
          else Obs.logPlanFinished) := by
  refine ⟨by rw [executePlan_outcomes]; exact List.length_map plan _, ?_, ?_⟩
  · intro i s hs hfail
    rw [executePlan_outcomes, List.getElem?_map, hs] at hfail
    have hg := Option.some.inj hfail
    have hmem := execStep_failed_logged env (detPhase env cache).2.1
      (env.platform == "linux") s hg
    have hsmem : s ∈ plan := List.getElem?_mem hs
    rw [executePlan_obs]
    exact List.mem_append_left _ (List.mem_append_left _ (List.mem_append_right _
      (List.mem_flatMap.mpr ⟨s, hsmem, hmem⟩)))
  · rw [executePlan_obs]
    cases hb : env.platform == "linux" with
    | false =>
      simp only [hb, Bool.false_eq_true, if_false, List.append_nil]
      rw [List.getLast?_concat]
    | true =>
      simp only [hb, if_true]
      rw [List.getLast?_concat]

/-- Witness for C6: a one-step plan whose install command fails still logs
the failure with the dependency name. -/
theorem executePlan_step_failures_contained_witness :
    Obs.logStepFailed "Git" ∈
      (executePlan darwinAllFailEnv none [⟨gitDep, .INSTALL, "r"⟩]).obs :=
  (executePlan_step_failures_contained darwinAllFailEnv none
    [⟨gitDep, .INSTALL, "r"⟩]).2.1 0 ⟨gitDep, .INSTALL, "r"⟩ rfl (by decide)

/-- On Linux with the cache at `unknown`, every `INSTALL` or `REINSTALL`
step fails: neither an install nor an uninstall command resolves. -/
theorem execStep_unknown_failed (env : ExecEnv) (t : Bool) (s : ActionStep)
    (hplat : env.platform = "linux") (h : s.action ≠ Action.ALREADY_MET) :
    (execStep env (some PM.unknown) t s).2 = .failed := by
  obtain ⟨d, a, r⟩ := s
  cases a with
  | ALREADY_MET => exact absurd rfl h
  | INSTALL =>
    unfold execStep installDependency
    rw [hplat, getInstallCommand_unknown]
    simp
  | REINSTALL =>
    unfold execStep uninstallDependency
    rw [hplat, getUninstallCommand_unknown]
    simp

/-- C8: on Linux the Executor probes apt, then dnf, then pacman, the first
present manager winning; when none is present `unknown` is recorded, and
then every `INSTALL` and `REINSTALL` step of the plan resolves no command
and fails step-locally while the loop still produces one outcome per step. -/
theorem linux_manager_priority_and_unknown_fallback (present runOk : String → Bool)
    (plan : ActionPlan) :
    (present "apt" = true →
      (executePlan ⟨"linux", present, runOk⟩ none plan).pm = some .apt)
    ∧ (present "apt" = false → present "dnf" = true →
      (executePlan ⟨"linux", present, runOk⟩ none plan).pm = some .dnf)
    ∧ (present "apt" = false → present "dnf" = false → present "pacman" = true →
      (executePlan ⟨"linux", present, runOk⟩ none plan).pm = some .pacman)
    ∧ (present "apt" = false → present "dnf" = false → present "pacman" = false →
      (executePlan ⟨"linux", present, runOk⟩ none plan).pm = some .unknown
      ∧ (executePlan ⟨"linux", present, runOk⟩ none plan).outcomes.length = plan.length
      ∧ ∀ i : Nat, ∀ s, plan[i]? = some s → s.action ≠ Action.ALREADY_MET →
          (executePlan ⟨"linux", present, runOk⟩ none plan).outcomes[i]? =
            some .failed) := by
  have hpm : (executePlan ⟨"linux", present, runOk⟩ none plan).pm =
      some (detectLoop present managers).2 := rfl
  refine ⟨?_, ?_, ?_, ?_⟩
  · intro h1
    rw [hpm]
    simp [detectLoop, managers, h1, pmOfName]
  · intro h1 h2
    rw [hpm]
    simp [detectLoop, managers, h1, h2, pmOfName]
  · intro h1 h2 h3
    rw [hpm]
    simp [detectLoop, managers, h1, h2, h3, pmOfName]
  · intro h1 h2 h3
    have hunk : (detectLoop present managers).2 = PM.unknown := by
      simp [detectLoop, managers, h1, h2, h3]
    have houtcomes : (executePlan ⟨"linux", present, runOk⟩ none plan).outcomes =
        plan.map (fun s => (execStep ⟨"linux", present, runOk⟩
          (some (detectLoop present managers).2) true s).2) := rfl
    refine ⟨by rw [hpm, hunk], by rw [houtcomes]; exact List.length_map plan _, ?_⟩
    intro i s hs hns
    rw [houtcomes, List.getElem?_map, hs, Option.map_some']
    rw [hunk]
    exact congrArg some (execStep_unknown_failed ⟨"linux", present, runOk⟩ true s rfl hns)

/-- Witness for C8: a Linux host with no supported manager records
`unknown` and fails the `INSTALL` step for Git without aborting. -/
theorem linux_manager_priority_witness :
    (executePlan linuxNoPMEnv none [⟨gitDep, .INSTALL, "r"⟩]).pm = some .unknown ∧
    (executePlan linuxNoPMEnv none [⟨gitDep, .INSTALL, "r"⟩]).outcomes[0]? =
      some .failed := by
  have h := (linux_manager_priority_and_unknown_fallback (fun _ => false)
    (fun _ => true) [⟨gitDep, .INSTALL, "r"⟩]).2.2.2 rfl rfl rfl
  exact ⟨h.1, h.2.2 0 ⟨gitDep, .INSTALL, "r"⟩ rfl (by decide)⟩

/-- Events that do not trigger the listener are skipped without settling
the promise. -/
theorem runCommandInTerminal_skip (token : List Char) (terminalId : Nat)
    (pre rest : List TerminalDataWriteEvent)
    (hpre : ∀ e ∈ pre, handleEvent token terminalId e = none) :
    runCommandInTerminal token terminalId (pre ++ rest) =
      runCommandInTerminal token terminalId rest := by
  induction pre with
  | nil => rfl
  | cons e es ih =>
    have he : handleEvent token terminalId e = none := hpre e (by simp)
    simp only [List.cons_append, runCommandInTerminal, he]
    exact ih (fun e' he' => hpre e' (by simp [he']))

/-- C5: the first chunk from our terminal that contains the token settles
the command: the trailing exit code is extracted by the `token:(digits)`
pattern match, the listener is disposed (all later chunks are ignored, which
is why `post` is arbitrary), and the promise resolves exactly when the code
is `0`, otherwise rejects carrying that code — in particular a token
arriving with exit code `1` in a later, separately delivered chunk rejects
with exit code `1` (see the witness). -/
theorem runCommandInTerminal_exit_code (token : List Char) (terminalId : Nat)
    (pre post : List TerminalDataWriteEvent) (data : List Char) (n : Nat)
    (hpre : ∀ e ∈ pre, handleEvent token terminalId e = none)
    (hinc : jsIncludes data token = true)
    (hmatch : regexFirstMatch token data = some n) :
    runCommandInTerminal token terminalId
        (pre ++ ⟨terminalId, data⟩ :: post) =
      some (if n = 0 then .resolved else .rejected n) := by
  rw [runCommandInTerminal_skip token terminalId pre _ hpre]
  have hh : handleEvent token terminalId ⟨terminalId, data⟩ =
      some (if n = 0 then CmdOutcome.resolved else CmdOutcome.rejected n) := by
    unfold handleEvent
    simp only [beq_self_eq_true, Bool.true_and, hinc, if_true, hmatch]
    by_cases hn : n = 0
    · subst hn
      simp
    · simp [hn, Int.natCast_eq_zero]
  simp only [runCommandInTerminal, hh]

/-- Witness for C5: the marker with exit code `1` delivered in a second,
separate chunk rejects the command with exit code `1`. -/
theorem runCommandInTerminal_exit_code_witness :
    runCommandInTerminal "COMMAND_EXIT_CODE_7".data 3
      [⟨3, "installing\n".data⟩, ⟨3, "done COMMAND_EXIT_CODE_7:1\n".data⟩] =
      some (.rejected 1) := by
  have h := runCommandInTerminal_exit_code "COMMAND_EXIT_CODE_7".data 3
    [⟨3, "installing\n".data⟩] [] "done COMMAND_EXIT_CODE_7:1\n".data 1
    (by decide) (by decide) (by decide)
  simpa using h

/-- C10: a chunk that contains the token but in which the `token:(digits)`
pattern does not match (the digits still in flight in a later chunk, say)
makes the listener extract `-1`, dispose itself, and reject with `-1`; the
later chunks — `post` is arbitrary, including ones holding the complete
marker — can no longer change the outcome. -/
theorem runCommandInTerminal_incomplete_marker (token : List Char)
    (terminalId : Nat) (pre post : List TerminalDataWriteEvent) (data : List Char)
    (hpre : ∀ e ∈ pre, handleEvent token terminalId e = none)
    (hinc : jsIncludes data token = true)
    (hmatch : regexFirstMatch token data = none) :
    runCommandInTerminal token terminalId
        (pre ++ ⟨terminalId, data⟩ :: post) =
      some (.rejected (-1)) := by
  rw [runCommandInTerminal_skip token terminalId pre _ hpre]
  have hh : handleEvent token terminalId ⟨terminalId, data⟩ =
      some (CmdOutcome.rejected (-1)) := by
    unfold handleEvent
    simp only [beq_self_eq_true, Bool.true_and, hinc, if_true, hmatch]
    rfl
  simp only [runCommandInTerminal, hh]

/-- Witness for C10: the token arrives with its colon but the digits only in
the next chunk; the command rejects with `-1` and the complete marker in the
following chunk (exit code `0`) cannot change that. -/
theorem runCommandInTerminal_incomplete_marker_witness :
    runCommandInTerminal "COMMAND_EXIT_CODE_9".data 3
      [⟨3, "exit COMMAND_EXIT_CODE_9:".data⟩,
       ⟨3, "COMMAND_EXIT_CODE_9:0\n".data⟩] =
      some (.rejected (-1)) := by
  have h := runCommandInTerminal_incomplete_marker "COMMAND_EXIT_CODE_9".data 3
    [] [⟨3, "COMMAND_EXIT_CODE_9:0\n".data⟩] "exit COMMAND_EXIT_CODE_9:".data
    (by simp) (by decide) (by decide)
  simpa using h

/-- C9: on Linux an unreadable `/etc/os-release` aborts the whole audit
fatally — `runAudit` returns `null` and zero dependency probes are spawned —
whereas a readable file naming an unrecognized distribution only logs a
warning and the audit proceeds to a non-null result. -/
theorem runAudit_osRelease_fatal_vs_warning (env : AuditEnv) :
    (env.osRelease = none →
      (runAudit env).results = none ∧ (runAudit env).probesRun = 0)
    ∧ (∀ content, env.osRelease = some content →
      supportedDistros.contains (distroOf content) = false →
      AuditObs.logWarnDistro (distroOf content) ∈ (runAudit env).obs ∧
      ((runAudit env).results).isSome = true) := by
  constructor
  · intro h
    unfold runAudit detectLinuxDistribution
    rw [h]
    exact ⟨rfl, rfl⟩
  · intro content hc hns
    unfold runAudit detectLinuxDistribution
    rw [hc]
    simp only [hns, Bool.false_eq_true, if_false]
    cases env.config with
    | none => exact ⟨by simp, rfl⟩
    | some deps =>
      by_cases hd : deps.isEmpty <;> simp [hd]

/-- Witness for C9: the unreadable file aborts with `null`; a readable file
naming gentoo warns and proceeds. -/
theorem runAudit_osRelease_witness :
    (runAudit unreadableAuditEnv).results = none ∧
    AuditObs.logWarnDistro "gentoo".data ∈ (runAudit gentooAuditEnv).obs := by
  constructor
  · exact ((runAudit_osRelease_fatal_vs_warning unreadableAuditEnv).1 rfl).1
  · have h := ((runAudit_osRelease_fatal_vs_warning gentooAuditEnv).2
      "ID=gentoo\n".data rfl (by decide)).1
    have hdist : distroOf "ID=gentoo\n".data = "gentoo".data := by decide
    rwa [hdist] at h

/-- C4 counterexample: two distinct invocations of the interactive
command-run operation that read the same millisecond clock value
(`Date.now()` has millisecond granularity) generate identical marker
tokens, so the claimed per-call freshness fails. -/
theorem commandId_not_fresh_counterexample :
    (⟨0, 1700000000000⟩ : TerminalCall) ≠ ⟨1, 1700000000000⟩ ∧
    TerminalCall.commandId ⟨0, 1700000000000⟩ =
      TerminalCall.commandId ⟨1, 1700000000000⟩ :=
  ⟨by decide, rfl⟩

/-- The decimal digit characters determine the digits they render. -/
theorem digitChar_inj {a b : Nat} (ha : a < 10) (hb : b < 10)
    (h : Nat.digitChar a = Nat.digitChar b) : a = b := by
  interval_cases a <;> interval_cases b <;> revert h <;> decide

/-- Rendering digit lists below the base as characters is injective. -/
theorem map_digitChar_inj : ∀ (l1 l2 : List Nat), (∀ d ∈ l1, d < 10) →
    (∀ d ∈ l2, d < 10) → l1.map Nat.digitChar = l2.map Nat.digitChar → l1 = l2 := by
  intro l1
  induction l1 with
  | nil =>
    intro l2 _ _ h
    cases l2 with
    | nil => rfl
    | cons b bs => simp at h
  | cons a as ih =>
    intro l2 h1 h2 h
    cases l2 with
    | nil => simp at h
    | cons b bs =>
      simp only [List.map_cons, List.cons.injEq] at h
      have hab : a = b := digitChar_inj (h1 a (by simp)) (h2 b (by simp)) h.1
      subst hab
      rw [ih bs (fun d hd => h1 d (by simp [hd])) (fun d hd => h2 d (by simp [hd])) h.2]

/-- The decimal rendering of a natural number determines the number. -/
theorem renderDecimal_injective : Function.Injective renderDecimal := by
  have hlt : ∀ k : Nat, ∀ d ∈ Nat.digits 10 k, d < 10 :=
    fun k d hd => Nat.digits_lt_base (by norm_num) hd
  have key : ∀ k, k ≠ 0 → ∀ j, j ≠ 0 → renderDecimal k = renderDecimal j → k = j := by
    intro k hk j hj h
    unfold renderDecimal at h
    rw [if_neg hk, if_neg hj] at h
    have hd : ((Nat.digits 10 k).map Nat.digitChar).reverse =
        ((Nat.digits 10 j).map Nat.digitChar).reverse := congrArg String.data h
    have hm : (Nat.digits 10 k).map Nat.digitChar =
        (Nat.digits 10 j).map Nat.digitChar := List.reverse_injective hd
    have hdig : Nat.digits 10 k = Nat.digits 10 j :=
      map_digitChar_inj _ _ (hlt k) (hlt j) hm
    calc k = Nat.ofDigits 10 (Nat.digits 10 k) := (Nat.ofDigits_digits 10 k).symm
      _ = Nat.ofDigits 10 (Nat.digits 10 j) := by rw [hdig]
      _ = j := Nat.ofDigits_digits 10 j
  have zero_ne : ∀ k, k ≠ 0 → renderDecimal k ≠ renderDecimal 0 := by
    intro k hk h
    unfold renderDecimal at h
    rw [if_neg hk, if_pos rfl] at h
    have hd : ((Nat.digits 10 k).map Nat.digitChar).reverse = ['0'] :=
      congrArg String.data h
    have hm : (Nat.digits 10 k).map Nat.digitChar = ['0'] := by
      have := congrArg List.reverse hd
      simpa using this
    have hdig : Nat.digits 10 k = [0] := by
      refine map_digitChar_inj _ [0] (hlt k) (by simp) ?_
      simpa using hm
    have hk0 : k = 0 := by
      have h0 := Nat.ofDigits_digits 10 k
      rw [hdig] at h0
      simpa [Nat.ofDigits] using h0.symm
    exact hk hk0
  intro m n h
  by_cases hm : m = 0 <;> by_cases hn : n = 0
  · rw [hm, hn]
  · subst hm
    exact absurd h.symm (zero_ne n hn)
  · subst hn
    exact absurd h (zero_ne m hm)
  · exact key m hm n hn h

/-- C4 amended: the marker token is derived solely from the millisecond
timestamp `Date.now()`; two invocations generate distinct tokens exactly
when their timestamps differ — calls within the same millisecond share a
token (see the counterexample), calls in different milliseconds never do. -/
theorem commandId_fresh_iff_distinct_timestamps (c1 c2 : TerminalCall)
    (h : c1.now ≠ c2.now) :
    TerminalCall.commandId c1 ≠ TerminalCall.commandId c2 := by
  intro he
  apply h
  unfold TerminalCall.commandId generateCommandId at he
  have hdata := congrArg String.data he
  rw [String.data_append, String.data_append] at hdata
  have htail : (renderDecimal c1.now).data = (renderDecimal c2.now).data :=
    List.append_cancel_left hdata
  exact renderDecimal_injective (String.ext htail)

/-- Witness for the amended C4: calls in adjacent milliseconds generate
distinct tokens. -/
theorem commandId_fresh_witness :
    TerminalCall.commandId ⟨0, 1⟩ ≠ TerminalCall.commandId ⟨0, 2⟩ :=
  commandId_fresh_iff_distinct_timestamps ⟨0, 1⟩ ⟨0, 2⟩ (by decide)

end SetupRunner
